import Mathlib

/-!
Verification development for the size-targeting compression engine of the
File-Resizer repository (file_resizer_backend.py).

The Python functions are shallowly embedded as Lean functions.  File contents
and encoder behaviour are abstracted by size oracles (the byte size that a
given encode produces, in kilobytes, as an exact rational), since the engine
only ever branches on measured sizes.  Machine integers are modelled by Nat
and Int; Python floor division by two on nonnegative ints coincides with Int
division here, and the truncation int(x) of a nonnegative float is modelled
by the exact rational floor.  Loops are modelled by fuel-indexed structural
recursion (so that everything computes); dedicated theorems show the fuel
bounds used by the top-level wrappers always suffice, which is exactly the
termination of the source loops.
-/

namespace FileResizer

/-- Image formats distinguished by resize_image. -/
inductive ImgFormat
  | jpeg
  | png
  | other
  deriving DecidableEq

/-- Model of the line img_format = img.format if img.format in [JPEG, PNG]
else JPEG. -/
def normFormat : ImgFormat → ImgFormat
  | .jpeg => .jpeg
  | .png => .png
  | .other => .jpeg

/-- Model of the line save_format = JPEG if img_format != PNG else PNG. -/
def save_format (img_format : ImgFormat) : ImgFormat :=
  if img_format = ImgFormat.png then ImgFormat.png else ImgFormat.jpeg

/-- Model of the aspect-ratio branch of resize_image: when a pair (W, H) of
ints is supplied and both are positive, the image is resized (distorted) to
width = original width and height = int(original_width * (H / W)); the
truncation of the nonnegative value is the exact rational floor, which for
integer data is integer division.  When no pair is supplied, or a component
is not positive, the dimensions are unchanged. -/
def aspect_resize (w0 h0 : ℕ) (ar : Option (ℤ × ℤ)) : ℕ × ℕ :=
  match ar with
  | none => (w0, h0)
  | some (rw, rh) =>
      if 0 < rw ∧ 0 < rh then (w0, ((w0 : ℤ) * rh / rw).toNat) else (w0, h0)

/-- Outcome of the encode/measure/decide loop of resize_image: either the
buffer was written to the output path (with the pixel dimensions and quality
of the final encode), or a shrunken dimension reached zero and the function
returned False without writing. -/
inductive ImgOutcome
  | success (w h q : ℕ)
  | failDim
  deriving DecidableEq

/-- Fuel-indexed model of the while True loop of resize_image.  enc w h q is
the in-memory encoded size (KB) of the image at dimensions w, h and quality
q; target is target_kb.  One fuel unit is one loop iteration; none means the
fuel ran out (shown unreachable for the fuel used by resize_image).
Per iteration: encode and measure; if the size is at most target or quality
is at most 10, write the buffer and return success; otherwise while quality
exceeds 60 lower it by 5, else shrink both dimensions to int(d * 0.9) -
modelled as 9 * d / 10 - failing if either reaches zero. -/
def imgLoopF (enc : ℕ → ℕ → ℕ → ℚ) (target : ℚ) :
    ℕ → ℕ → ℕ → ℕ → Option ImgOutcome
  | 0, _, _, _ => none
  | fuel + 1, w, h, q =>
      if enc w h q ≤ target ∨ q ≤ 10 then some (ImgOutcome.success w h q)
      else if 60 < q then imgLoopF enc target fuel w h (q - 5)
      else if 9 * w / 10 = 0 ∨ 9 * h / 10 = 0 then some ImgOutcome.failDim
      else imgLoopF enc target fuel (9 * w / 10) (9 * h / 10) q

/-- Environment of one resize_image call: the decode result of Image.open
(none models a raised exception; some gives the pixel size and format), and
the size oracle giving the buffer size in KB of an encode at a given save
format, dimensions and quality. -/
structure ImgEnv where
  decode : Option (ℕ × ℕ × ImgFormat)
  encSizeKB : ImgFormat → ℕ → ℕ → ℕ → ℚ

/-- Observable result of one resize_image call: the returned boolean, whether
a file was written at the output path, and the dimensions and quality of the
written encode when one was written. -/
structure ImgResult where
  ret : Bool
  written : Bool
  final : Option (ℕ × ℕ × ℕ)
  deriving DecidableEq

/-- The body of resize_image inside its try block, as an exception-explicit
computation: a decode failure raises; otherwise the aspect branch runs, then
the loop starts at quality 95.  The fuel w + h + 95 + 1 is sufficient (see
the termination theorem); the none fallback is unreachable. -/
def resize_imageBody (env : ImgEnv) (target : ℚ) (ar : Option (ℤ × ℤ)) :
    Except Unit ImgResult :=
  match env.decode with
  | none => Except.error ()
  | some (w0, h0, fmt0) =>
      let sfmt := save_format (normFormat fmt0)
      let p := aspect_resize w0 h0 ar
      match imgLoopF (env.encSizeKB sfmt) target (p.1 + p.2 + 96) p.1 p.2 95 with
      | some (ImgOutcome.success w h q) => Except.ok ⟨true, true, some (w, h, q)⟩
      | some ImgOutcome.failDim => Except.ok ⟨false, false, none⟩
      | none => Except.ok ⟨false, false, none⟩

/-- resize_image: the try/except wrapper around the body; any raised
exception is caught and reported as a False return with nothing written. -/
def resize_image (env : ImgEnv) (target : ℚ) (ar : Option (ℤ × ℤ)) :
    ImgResult :=
  match resize_imageBody env target ar with
  | Except.ok r => r
  | Except.error _ => ⟨false, false, none⟩

/-- Paths relevant to one engine call: out is the caller-supplied output
path; tmp q is the trial file output_path + .q{q}.tmp written by the binary
search at quality q (distinct from out because the suffix is nonempty);
tmpImg u is the unique temp_comp_img_{uuid}.jpg file of the pixmap helper. -/
inductive FsPath
  | out
  | tmp (q : ℤ)
  | tmpImg (u : ℕ)
  deriving DecidableEq

/-- State of the Pass-2 binary search of _rasterize_to_target: the low and
high quality bounds, the best feasible candidate so far as (best_size,
quality of best_file_to_keep) - None models best_size = inf with no file -
the list of qualities whose trial files were appended to tested_temp_files,
the set of files on disk, and the iteration counter used by the fault
oracle. -/
structure RasterState where
  low : ℤ
  high : ℤ
  best : Option (ℚ × ℤ)
  tested : List ℤ
  fs : Finset FsPath
  iter : ℕ

/-- How the while loop of _rasterize_to_target was left: normally with
low > high, or through an exception raised during some iteration. -/
inductive LoopExit
  | normal (s : RasterState)
  | raised (s : RasterState)

/-- The search state at the point the loop was left. -/
def stateOf : LoopExit → RasterState
  | LoopExit.normal s => s
  | LoopExit.raised s => s

/-- The best-candidate update of _rasterize_to_target for a feasible trial
of size sz at quality mid: with no previous candidate (best_size = inf) the
trial is recorded; otherwise it replaces the previous best exactly when its
size is strictly closer to the target. -/
def bestUpdate (sz target : ℚ) (mid : ℤ) : Option (ℚ × ℤ) → Option (ℚ × ℤ)
  | none => some (sz, mid)
  | some (bs, bq) =>
      if |sz - target| < |bs - target| then some (sz, mid) else some (bs, bq)

/-- Fuel-indexed model of the while low <= high loop of _rasterize_to_target.
size q is the measured size in KB of the rasterized trial document saved at
JPEG quality q; fault i = true means an exception is raised in iteration i
after the trial file for that iteration was created (e.g. while measuring or
assembling), which unwinds to the except/finally blocks.  Per iteration:
mid = (low + high) / 2 (Python floor division; both bounds stay nonnegative
here so Int division agrees); the trial path is recorded and the trial file
written; if the size is within target the candidate is recorded as new best
exactly when strictly closer to the target than the previous best, and the
search moves up (low = mid + 1), otherwise down (high = mid - 1). -/
def rasterLoopF (size : ℤ → ℚ) (target : ℚ) (fault : ℕ → Bool) :
    ℕ → RasterState → Option LoopExit
  | 0, _ => none
  | fuel + 1, s =>
      if s.low ≤ s.high then
        let mid := (s.low + s.high) / 2
        let tested2 := s.tested ++ [mid]
        let fs2 := insert (FsPath.tmp mid) s.fs
        if fault s.iter then
          some (LoopExit.raised ⟨s.low, s.high, s.best, tested2, fs2, s.iter + 1⟩)
        else if size mid ≤ target then
          rasterLoopF size target fault fuel
            ⟨mid + 1, s.high, bestUpdate (size mid) target mid s.best,
              tested2, fs2, s.iter + 1⟩
        else
          rasterLoopF size target fault fuel
            ⟨s.low, mid - 1, s.best, tested2, fs2, s.iter + 1⟩
      else some (LoopExit.normal s)

/-- The finally block of _rasterize_to_target: remove every recorded trial
file that still exists and is not the output path (trial paths are never the
output path, so each recorded trial path is simply erased if present). -/
def cleanupTmp (tested : List ℤ) (fs : Finset FsPath) : Finset FsPath :=
  tested.foldl (fun acc t => acc.erase (FsPath.tmp t)) fs

/-- The cleanup before promotion on the success path: remove every recorded
trial file other than best_file_to_keep. -/
def cleanupExcept (keep : ℤ) (tested : List ℤ) (fs : Finset FsPath) :
    Finset FsPath :=
  tested.foldl (fun acc t => if t = keep then acc else acc.erase (FsPath.tmp t)) fs

/-- Observable result of one _rasterize_to_target call: the returned
boolean, the quality of the promoted trial file when one was promoted, and
the final file set. -/
structure RasterResult where
  ret : Bool
  promoted : Option ℤ
  fs : Finset FsPath
  deriving DecidableEq

/-- Model of _rasterize_to_target on an initial file set fs0: run the binary
search from low = 30, high = 99 with no best candidate (71 fuel units cover
the at most 70 iterations of a search on [30, 99]; the none fallback is
unreachable).  On normal exit with a best candidate: delete the other trial
files, rename the winner to the output path, and run the finally block;
with no candidate, or on an exception (caught, returning False), just run
the finally block. -/
def rasterize_to_target (size : ℤ → ℚ) (target : ℚ) (fault : ℕ → Bool)
    (fs0 : Finset FsPath) : RasterResult :=
  match rasterLoopF size target fault 71 ⟨30, 99, none, [], fs0, 0⟩ with
  | some (LoopExit.normal s) =>
      match s.best with
      | some (_, bq) =>
          let fs1 := cleanupExcept bq s.tested s.fs
          let fs2 := insert FsPath.out (fs1.erase (FsPath.tmp bq))
          ⟨true, some bq, cleanupTmp s.tested fs2⟩
      | none => ⟨false, none, cleanupTmp s.tested s.fs⟩
  | some (LoopExit.raised s) => ⟨false, none, cleanupTmp s.tested s.fs⟩
  | none => ⟨false, none, fs0⟩

/-- An embedded image reference of one PDF page in Pass 1: its xref number
and whether the whole per-image step (Pixmap creation, RGB conversion when
the pixmap has an alpha or extra channel, JPEG recompression) succeeds.  A
failing step raises inside the per-image try block and the image is
skipped. -/
structure PdfImg where
  xref : ℤ
  decodeOk : Bool

/-- The per-image step of Pass 1: images with xref > 0 whose processing
succeeds have their resource replaced (recorded by xref); failing images and
nonpositive xrefs leave the document unchanged at that reference. -/
def processImage (img : PdfImg) : Option ℤ :=
  if 0 < img.xref then (if img.decodeOk then some img.xref else none) else none

/-- Pass 1 over all pages: the list of xrefs whose images were recompressed
and substituted in place, in page order. -/
def pass1Images (pages : List (List PdfImg)) : List ℤ :=
  pages.flatMap (fun page => page.filterMap processImage)

/-- Which pass produced the file at the output path. -/
inductive PassTag
  | pass1
  | pass2
  deriving DecidableEq

/-- Environment of one resize_pdf call: whether fitz.open succeeds, the
embedded images of each page, the size oracle for the Pass-1 save as a
function of the list of recompressed xrefs, the Pass-2 per-quality size
oracle, and the Pass-2 fault oracle. -/
structure PdfEnv where
  openOk : Bool
  pages : List (List PdfImg)
  pass1SizeKB : List ℤ → ℚ
  rasterSizeKB : ℤ → ℚ
  rastFault : ℕ → Bool

/-- Observable result of one resize_pdf call: the returned boolean, whether
Pass 2 (rasterization) was executed, and which pass produced the output
file, if any. -/
structure PdfResult where
  ret : Bool
  ranPass2 : Bool
  src : Option PassTag
  deriving DecidableEq

/-- The body of resize_pdf inside its try block: an open failure raises;
otherwise Pass 1 recompresses images in place (skipping failures), saves
with structural optimizations and measures; if the size is within target
this is the final result and Pass 2 never runs; otherwise the Pass-1 file is
removed and Pass 2 runs on an otherwise clean working set. -/
def resize_pdfBody (env : PdfEnv) (target : ℚ) : Except Unit PdfResult :=
  if env.openOk then
    let updated := pass1Images env.pages
    if env.pass1SizeKB updated ≤ target then
      Except.ok ⟨true, false, some PassTag.pass1⟩
    else
      let r := rasterize_to_target env.rasterSizeKB target env.rastFault ∅
      Except.ok ⟨r.ret, true, if r.ret then some PassTag.pass2 else none⟩
  else Except.error ()

/-- resize_pdf: the try/except wrapper around the body; any raised exception
is caught, any file at the output path is removed, and False is returned. -/
def resize_pdf (env : PdfEnv) (target : ℚ) : PdfResult :=
  match resize_pdfBody env target with
  | Except.ok r => r
  | Except.error _ => ⟨false, false, none⟩

/-- Search invariant of the binary search: the bounds stay inside [30, 100]
and [29, 99] with low ≤ high + 1; every quality above high has already been
found infeasible; and the best candidate, when present, records the size of
the last feasible probe low - 1 and a feasible in-range quality of exactly
that size, while an absent candidate means no feasible probe happened and
low is still 30. -/
def RInv (size : ℤ → ℚ) (target : ℚ) (s : RasterState) : Prop :=
  30 ≤ s.low ∧ s.high ≤ 99 ∧ s.low ≤ s.high + 1 ∧
    (∀ q, s.high < q → q ≤ 99 → ¬ size q ≤ target) ∧
    (match s.best with
     | none => s.low = 30
     | some (bs, bq) =>
         31 ≤ s.low ∧ bs = size (s.low - 1) ∧ 30 ≤ bq ∧ bq ≤ 99 ∧
           bs = size bq ∧ size bq ≤ target)

/-- File-set invariant of the binary search used to verify cleanup: the
files on disk are the initial ones plus exactly the recorded trial files,
and the quality of the current best candidate is recorded. -/
def FsInv (fs0 : Finset FsPath) (s : RasterState) : Prop :=
  (∀ x, x ∈ s.fs ↔ x ∈ fs0 ∨ ∃ tq ∈ s.tested, x = FsPath.tmp tq) ∧
    (∀ bs bq, s.best = some (bs, bq) → bq ∈ s.tested)

/-- Environment of one _get_compressed_jpeg_bytes call: whether pix.save
succeeds in creating and writing the temporary JPEG, and whether reading the
bytes back succeeds. -/
structure JpegEnv where
  saveOk : Bool
  readOk : Bool

/-- Model of _get_compressed_jpeg_bytes on file set fs, with u the unique
uuid token of its temporary file: save writes the temp file, the bytes are
read back, and the finally block removes the temp file if it exists - on
the normal path and on both failure paths alike.  The first component tells
whether the call returned normally or raised. -/
def get_compressed_jpeg_bytes (u : ℕ) (env : JpegEnv) (fs : Finset FsPath) :
    Except Unit Unit × Finset FsPath :=
  let mid :=
    if env.saveOk then
      let fs1 := insert (FsPath.tmpImg u) fs
      if env.readOk then (Except.ok (), fs1) else (Except.error (), fs1)
    else (Except.error (), fs)
  (mid.1, mid.2.erase (FsPath.tmpImg u))

end FileResizer

namespace FileResizer

/-- Claim C1 counterexample: for original width 3 and supplied ratio 2:1 the
code computes height int(3 * (1 / 2)) = 1, while round(3 * 1 / 2) = 2, so the
produced height is not round(original_width * h / w) as claimed. -/
theorem C1_counterexample :
    aspect_resize 3 100 (some (2, 1)) = (3, 1) ∧
      round ((3 : ℚ) * 1 / 2) = 2 ∧ (1 : ℕ) ≠ 2 := by
  refine ⟨by decide, ?_, by decide⟩
  rw [round_eq]
  norm_num

/-- Claim C1 (amended): for every image and every supplied aspect ratio w:h
with positive integer components, the transform before the quality search
keeps the width equal to the original width and sets the height to the
truncation (floor) of original_width * h / w; it distorts and never crops. -/
theorem C1_height_floor (w0 h0 : ℕ) (rw rh : ℤ)
    (hw : 0 < rw) (hh : 0 < rh) :
    (aspect_resize w0 h0 (some (rw, rh))).1 = w0 ∧
      ((aspect_resize w0 h0 (some (rw, rh))).2 : ℤ) =
        ⌊((w0 : ℚ) * (rh : ℚ)) / (rw : ℚ)⌋ := by
  constructor
  · simp [aspect_resize, hw, hh]
  · have h1 : (aspect_resize w0 h0 (some (rw, rh))).2 =
        ((w0 : ℤ) * rh / rw).toNat := by
      simp [aspect_resize, hw, hh]
    rw [h1]
    have hnn : 0 ≤ (w0 : ℤ) * rh / rw :=
      Int.ediv_nonneg (by positivity) (le_of_lt hw)
    rw [Int.toNat_of_nonneg hnn]
    have hrw : ((rw.toNat : ℤ)) = rw := Int.toNat_of_nonneg (le_of_lt hw)
    have := Rat.floor_intCast_div_natCast ((w0 : ℤ) * rh) rw.toNat
    rw [hrw] at this
    rw [← this]
    have hrwq : ((rw.toNat : ℚ)) = ((rw : ℤ) : ℚ) := by exact_mod_cast hrw
    rw [hrwq]
    push_cast
    norm_num

/-- Witness for C1_height_floor at width 3 and ratio 2:1. -/
theorem C1_witness :
    (aspect_resize 3 100 (some (2, 1))).1 = 3 ∧
      ((aspect_resize 3 100 (some (2, 1))).2 : ℤ) =
        ⌊((3 : ℚ) * (1 : ℚ)) / (2 : ℚ)⌋ := by
  have h := C1_height_floor 3 100 2 1 (by decide) (by decide)
  simpa using h

/-- An iteration whose encode satisfies the stopping condition writes the
buffer and succeeds at the current dimensions and quality. -/
lemma aux_imgLoopF_stop (enc : ℕ → ℕ → ℕ → ℚ) (target : ℚ)
    (fuel w h q : ℕ) (hc : enc w h q ≤ target ∨ q ≤ 10) :
    imgLoopF enc target (fuel + 1) w h q = some (ImgOutcome.success w h q) := by
  simp only [imgLoopF]
  rw [if_pos hc]

/-- The loop of resize_image terminates: w + h + q iterations always
suffice, because each iteration that continues either lowers the quality by
5 or strictly shrinks both dimensions. -/
lemma aux_imgLoopF_isSome (enc : ℕ → ℕ → ℕ → ℚ) (target : ℚ) :
    ∀ fuel w h q, w + h + q < fuel →
      (imgLoopF enc target fuel w h q).isSome = true := by
  intro fuel
  induction fuel with
  | zero => intro w h q hlt; omega
  | succ n ih =>
      intro w h q hlt
      simp only [imgLoopF]
      by_cases hc : enc w h q ≤ target ∨ q ≤ 10
      · rw [if_pos hc]; rfl
      · rw [if_neg hc]
        by_cases hq : 60 < q
        · rw [if_pos hq]
          exact ih w h (q - 5) (by omega)
        · rw [if_neg hq]
          by_cases hz : 9 * w / 10 = 0 ∨ 9 * h / 10 = 0
          · rw [if_pos hz]; rfl
          · rw [if_neg hz]
            push_neg at hz
            exact ih (9 * w / 10) (9 * h / 10) q (by omega)

/-- Invariant of the loop of resize_image: starting from a quality that is a
multiple of 5 and at least 60, the quality stays a multiple of 5 and at
least 60, so a successful exit can only be through the size test. -/
lemma aux_imgLoopF_inv (enc : ℕ → ℕ → ℕ → ℚ) (target : ℚ) :
    ∀ fuel w h q w2 h2 q2, 60 ≤ q → 5 ∣ q →
      imgLoopF enc target fuel w h q = some (ImgOutcome.success w2 h2 q2) →
      60 ≤ q2 ∧ 5 ∣ q2 ∧ enc w2 h2 q2 ≤ target := by
  intro fuel
  induction fuel with
  | zero => intro w h q w2 h2 q2 _ _ heq; simp [imgLoopF] at heq
  | succ n ih =>
      intro w h q w2 h2 q2 hq60 hq5 heq
      simp only [imgLoopF] at heq
      by_cases hc : enc w h q ≤ target ∨ q ≤ 10
      · rw [if_pos hc] at heq
        have h1 : w = w2 ∧ h = h2 ∧ q = q2 := by
          have := Option.some.inj heq
          cases this
          exact ⟨rfl, rfl, rfl⟩
        obtain ⟨rfl, rfl, rfl⟩ := h1
        refine ⟨hq60, hq5, ?_⟩
        rcases hc with hc | hc
        · exact hc
        · omega
      · rw [if_neg hc] at heq
        by_cases hq : 60 < q
        · rw [if_pos hq] at heq
          have hge : 65 ≤ q := by omega
          exact ih w h (q - 5) w2 h2 q2 (by omega) (by omega) heq
        · rw [if_neg hq] at heq
          by_cases hz : 9 * w / 10 = 0 ∨ 9 * h / 10 = 0
          · rw [if_pos hz] at heq
            exact absurd (Option.some.inj heq) (by simp)
          · rw [if_neg hz] at heq
            exact ih (9 * w / 10) (9 * h / 10) q w2 h2 q2 hq60 hq5 heq

/-- On every path, resize_image reports a write exactly when it returns
True: the output file is written only in the success branch of the loop. -/
lemma aux_written_eq_ret (env : ImgEnv) (target : ℚ) (ar : Option (ℤ × ℤ)) :
    (resize_image env target ar).written = (resize_image env target ar).ret := by
  rcases hd : env.decode with _ | ⟨w0, h0, f0⟩
  · simp [resize_image, resize_imageBody, hd]
  · simp only [resize_image, resize_imageBody, hd]
    rcases hl : imgLoopF (env.encSizeKB (save_format (normFormat f0))) target
        ((aspect_resize w0 h0 ar).1 + (aspect_resize w0 h0 ar).2 + 96)
        (aspect_resize w0 h0 ar).1 (aspect_resize w0 h0 ar).2 95 with _ | o
    · simp [hl]
    · rcases o with ⟨w, h, q⟩ | _ <;> simp [hl]

/-- Claim C3: quality starts at 95, and in every loop iteration in which the
in-memory encoded size is within target_kb or the quality has reached the
floor of 10, the encoded bytes are written to the output path and the call
returns success.  The first conjunct is the per-iteration statement; the
second instantiates it at the first iteration of resize_image, whose quality
is 95 and whose dimensions are the ones produced by the aspect branch. -/
theorem C3_write_on_stop :
    (∀ (enc : ℕ → ℕ → ℕ → ℚ) (target : ℚ) (fuel w h q : ℕ),
        (enc w h q ≤ target ∨ q ≤ 10) →
        imgLoopF enc target (fuel + 1) w h q = some (ImgOutcome.success w h q)) ∧
    (∀ (env : ImgEnv) (target : ℚ) (ar : Option (ℤ × ℤ)) (w0 h0 : ℕ)
        (fmt0 : ImgFormat), env.decode = some (w0, h0, fmt0) →
        env.encSizeKB (save_format (normFormat fmt0))
            (aspect_resize w0 h0 ar).1 (aspect_resize w0 h0 ar).2 95 ≤ target →
        resize_image env target ar =
          ⟨true, true,
            some ((aspect_resize w0 h0 ar).1, (aspect_resize w0 h0 ar).2, 95)⟩) := by
  constructor
  · exact fun enc target fuel w h q hc => aux_imgLoopF_stop enc target fuel w h q hc
  · intro env target ar w0 h0 fmt0 hd hsz
    have hstop := aux_imgLoopF_stop (env.encSizeKB (save_format (normFormat fmt0)))
      target ((aspect_resize w0 h0 ar).1 + (aspect_resize w0 h0 ar).2 + 95)
      (aspect_resize w0 h0 ar).1 (aspect_resize w0 h0 ar).2 95 (Or.inl hsz)
    simp only [resize_image, resize_imageBody, hd]
    rw [hstop]

/-- Witness for C3_write_on_stop: a constant encoder of size 0 stops at once
and resize_image writes at quality 95. -/
theorem C3_witness :
    imgLoopF (fun _ _ _ => (0 : ℚ)) 1 1 5 5 95 = some (ImgOutcome.success 5 5 95) ∧
      resize_image ⟨some (5, 5, ImgFormat.jpeg), fun _ _ _ _ => 0⟩ 1 none =
        ⟨true, true, some (5, 5, 95)⟩ := by
  constructor
  · exact C3_write_on_stop.1 (fun _ _ _ => 0) 1 0 5 5 95 (Or.inl (by norm_num))
  · exact C3_write_on_stop.2 ⟨some (5, 5, ImgFormat.jpeg), fun _ _ _ _ => 0⟩ 1 none
      5 5 ImgFormat.jpeg rfl (by norm_num)

/-- Claim C10: quality is only lowered while strictly above 60, so at least
60 (being a multiple of 5 starting from 95) throughout; hence the quality
floor branch of the stopping test is unreachable and a successful return of
the loop has its final encoded size actually within target_kb. -/
theorem C10_quality_floor_unreachable (enc : ℕ → ℕ → ℕ → ℚ) (target : ℚ)
    (fuel w h w2 h2 q2 : ℕ)
    (hrun : imgLoopF enc target fuel w h 95 = some (ImgOutcome.success w2 h2 q2)) :
    60 ≤ q2 ∧ ¬ q2 ≤ 10 ∧ enc w2 h2 q2 ≤ target := by
  have h := aux_imgLoopF_inv enc target fuel w h 95 w2 h2 q2 (by omega)
    (by omega) hrun
  exact ⟨h.1, by omega, h.2.2⟩

/-- Witness for C10_quality_floor_unreachable with a constant encoder. -/
theorem C10_witness :
    60 ≤ 95 ∧ ¬ (95 : ℕ) ≤ 10 ∧ (fun _ _ _ => (0 : ℚ)) 5 5 95 ≤ 1 := by
  refine C10_quality_floor_unreachable (fun _ _ _ => (0 : ℚ)) 1 1 5 5 5 5 95 ?_
  exact aux_imgLoopF_stop (fun _ _ _ => (0 : ℚ)) 1 0 5 5 95 (Or.inl (by norm_num))

/-- Claim C4: when the dimension-shrinking phase drives a dimension to round
to zero the loop reports failure without writing (first conjunct), and in
general a False return of resize_image never has a file written at the
output path (second conjunct).  Output writing is modelled as atomic: the
write in the success branch either completes or is not performed. -/
theorem C4_no_write_on_failure :
    (∀ (enc : ℕ → ℕ → ℕ → ℚ) (target : ℚ) (fuel w h q : ℕ),
        ¬ (enc w h q ≤ target ∨ q ≤ 10) → ¬ 60 < q →
        (9 * w / 10 = 0 ∨ 9 * h / 10 = 0) →
        imgLoopF enc target (fuel + 1) w h q = some ImgOutcome.failDim) ∧
    (∀ (env : ImgEnv) (target : ℚ) (ar : Option (ℤ × ℤ)),
        (resize_image env target ar).ret = false →
        (resize_image env target ar).written = false) := by
  constructor
  · intro enc target fuel w h q hc hq hz
    simp only [imgLoopF]
    rw [if_neg hc, if_neg hq, if_pos hz]
  · intro env target ar hret
    rw [aux_written_eq_ret, hret]

/-- Witness for C4_no_write_on_failure: a 1 x 1 image whose encode is too
large at the dimension phase fails, and a decode failure returns False with
nothing written. -/
theorem C4_witness :
    imgLoopF (fun _ _ _ => (100 : ℚ)) 1 1 1 1 60 = some ImgOutcome.failDim ∧
      (resize_image ⟨none, fun _ _ _ _ => 0⟩ 1 none).written = false := by
  constructor
  · exact C4_no_write_on_failure.1 (fun _ _ _ => (100 : ℚ)) 1 0 1 1 60
      (by push_neg; constructor <;> norm_num) (by omega) (by omega)
  · exact C4_no_write_on_failure.2 ⟨none, fun _ _ _ _ => 0⟩ 1 none rfl

/-- The binary search loop terminates: high + 1 - low iterations always
suffice, because mid stays within [low, high] and each iteration moves low
past mid or high before mid. -/
lemma aux_rasterLoopF_isSome (size : ℤ → ℚ) (target : ℚ) (fault : ℕ → Bool) :
    ∀ fuel (s : RasterState), 0 ≤ s.low →
      (s.high + 1 - s.low).toNat < fuel →
      (rasterLoopF size target fault fuel s).isSome = true := by
  intro fuel
  induction fuel with
  | zero => intro s _ hlt; omega
  | succ n ih =>
      intro s hpos hlt
      simp only [rasterLoopF]
      by_cases hlh : s.low ≤ s.high
      · rw [if_pos hlh]
        have hmlb : s.low ≤ (s.low + s.high) / 2 := by omega
        have hmub : (s.low + s.high) / 2 ≤ s.high := by omega
        by_cases hf : fault s.iter
        · rw [if_pos hf]; rfl
        · rw [if_neg hf]
          by_cases hsz : size ((s.low + s.high) / 2) ≤ target
          · rw [if_pos hsz]
            exact ih _ (by simp; omega) (by simp; omega)
          · rw [if_neg hsz]
            exact ih _ (by simp; omega) (by simp; omega)
      · rw [if_neg hlh]; rfl

/-- Claim C9: every call of the two search loops terminates.  The loop of
resize_image runs at most w + h + q iterations from dimensions w, h and
quality q, since the quality descends while above 60 and afterwards both
dimensions strictly shrink until success or a zero dimension; the binary
search runs at most high + 1 - low iterations since the bracket strictly
shrinks each iteration. -/
theorem C9_termination :
    (∀ (enc : ℕ → ℕ → ℕ → ℚ) (target : ℚ) (fuel w h q : ℕ),
        w + h + q < fuel → (imgLoopF enc target fuel w h q).isSome = true) ∧
    (∀ (size : ℤ → ℚ) (target : ℚ) (fault : ℕ → Bool) (fuel : ℕ)
        (s : RasterState), 0 ≤ s.low → (s.high + 1 - s.low).toNat < fuel →
        (rasterLoopF size target fault fuel s).isSome = true) := by
  exact ⟨fun enc target fuel w h q hlt => aux_imgLoopF_isSome enc target fuel w h q hlt,
    fun size target fault fuel s h1 h2 =>
      aux_rasterLoopF_isSome size target fault fuel s h1 h2⟩

/-- Witness for C9_termination: the initial resize_image state 5 x 5 at
quality 95, and the initial binary search state on [30, 99], each with the
fuel their callers use. -/
theorem C9_witness :
    (imgLoopF (fun _ _ _ => (0 : ℚ)) 1 106 5 5 95).isSome = true ∧
      (rasterLoopF (fun _ => (0 : ℚ)) 1 (fun _ => false) 71
        ⟨30, 99, none, [], ∅, 0⟩).isSome = true := by
  constructor
  · exact C9_termination.1 (fun _ _ _ => 0) 1 106 5 5 95 (by omega)
  · exact C9_termination.2 (fun _ => 0) 1 (fun _ => false) 71
      ⟨30, 99, none, [], ∅, 0⟩ (by decide) (by decide)

/-- Step equation of the search loop: a feasible non-faulting trial records
the trial file and moves low up past mid. -/
lemma aux_step_up (size : ℤ → ℚ) (target : ℚ) (fault : ℕ → Bool) (fuel : ℕ)
    (s : RasterState) (hlh : s.low ≤ s.high) (hf : fault s.iter = false)
    (hsz : size ((s.low + s.high) / 2) ≤ target) :
    rasterLoopF size target fault (fuel + 1) s =
      rasterLoopF size target fault fuel
        ⟨(s.low + s.high) / 2 + 1, s.high,
          bestUpdate (size ((s.low + s.high) / 2)) target ((s.low + s.high) / 2)
            s.best,
          s.tested ++ [(s.low + s.high) / 2],
          insert (FsPath.tmp ((s.low + s.high) / 2)) s.fs, s.iter + 1⟩ := by
  simp only [rasterLoopF]
  rw [if_pos hlh, if_neg (by simp [hf]), if_pos hsz]

/-- Step equation of the search loop: an infeasible non-faulting trial
records the trial file and moves high down past mid. -/
lemma aux_step_down (size : ℤ → ℚ) (target : ℚ) (fault : ℕ → Bool) (fuel : ℕ)
    (s : RasterState) (hlh : s.low ≤ s.high) (hf : fault s.iter = false)
    (hsz : ¬ size ((s.low + s.high) / 2) ≤ target) :
    rasterLoopF size target fault (fuel + 1) s =
      rasterLoopF size target fault fuel
        ⟨s.low, (s.low + s.high) / 2 - 1, s.best,
          s.tested ++ [(s.low + s.high) / 2],
          insert (FsPath.tmp ((s.low + s.high) / 2)) s.fs, s.iter + 1⟩ := by
  simp only [rasterLoopF]
  rw [if_pos hlh, if_neg (by simp [hf]), if_neg hsz]

/-- Step equation of the search loop: a faulting iteration raises after the
trial file of that iteration was recorded and created. -/
lemma aux_step_fault (size : ℤ → ℚ) (target : ℚ) (fault : ℕ → Bool) (fuel : ℕ)
    (s : RasterState) (hlh : s.low ≤ s.high) (hf : fault s.iter = true) :
    rasterLoopF size target fault (fuel + 1) s =
      some (LoopExit.raised
        ⟨s.low, s.high, s.best, s.tested ++ [(s.low + s.high) / 2],
          insert (FsPath.tmp ((s.low + s.high) / 2)) s.fs, s.iter + 1⟩) := by
  simp only [rasterLoopF]
  rw [if_pos hlh, if_pos hf]

/-- Step equation of the search loop: once low exceeds high the loop exits
normally. -/
lemma aux_step_exit (size : ℤ → ℚ) (target : ℚ) (fault : ℕ → Bool) (fuel : ℕ)
    (s : RasterState) (hlh : ¬ s.low ≤ s.high) :
    rasterLoopF size target fault (fuel + 1) s = some (LoopExit.normal s) := by
  simp only [rasterLoopF]
  rw [if_neg hlh]

/-- Unfolding of the search invariant at an explicit state. -/
lemma aux_RInv_mk (size : ℤ → ℚ) (target : ℚ) (lo hi : ℤ)
    (be : Option (ℚ × ℤ)) (te : List ℤ) (fs : Finset FsPath) (it : ℕ) :
    RInv size target ⟨lo, hi, be, te, fs, it⟩ ↔
      (30 ≤ lo ∧ hi ≤ 99 ∧ lo ≤ hi + 1 ∧
        (∀ q, hi < q → q ≤ 99 → ¬ size q ≤ target) ∧
        (match be with
         | none => lo = 30
         | some (bs, bq) =>
             31 ≤ lo ∧ bs = size (lo - 1) ∧ 30 ≤ bq ∧ bq ≤ 99 ∧
               bs = size bq ∧ size bq ≤ target)) :=
  Iff.rfl

/-- Main lemma on the binary search under a monotone size oracle: from any
state satisfying the search invariant and with sufficient fuel, the loop
exits normally in a state that still satisfies the invariant and has
low = high + 1. -/
lemma aux_raster_run (size : ℤ → ℚ) (target : ℚ)
    (mono : ∀ a b : ℤ, 30 ≤ a → a ≤ b → b ≤ 99 → size a ≤ size b) :
    ∀ fuel (s : RasterState), RInv size target s →
      (s.high + 1 - s.low).toNat < fuel →
      ∃ s', rasterLoopF size target (fun _ => false) fuel s =
          some (LoopExit.normal s') ∧ RInv size target s' ∧
          s'.low = s'.high + 1 := by
  intro fuel
  induction fuel with
  | zero => intro s _ hlt; omega
  | succ n ih =>
      intro s hinv hlt
      obtain ⟨hl30, hh99, hlh1, hB, hbest⟩ := hinv
      by_cases hlh : s.low ≤ s.high
      · have hmlb : s.low ≤ (s.low + s.high) / 2 := by omega
        have hmub : (s.low + s.high) / 2 ≤ s.high := by omega
        by_cases hsz : size ((s.low + s.high) / 2) ≤ target
        · rw [aux_step_up size target (fun _ => false) n s hlh rfl hsz]
          apply ih
          · -- the invariant is preserved going up
            rw [aux_RInv_mk]
            refine ⟨by omega, hh99, by omega, hB, ?_⟩
            rcases hb : s.best with _ | ⟨bs, bq⟩
            · simp only [bestUpdate]
              refine ⟨by omega, ?_, by omega, by omega, by trivial, hsz⟩
              congr 1
              omega
            · rw [hb] at hbest
              obtain ⟨hb31, hbs, hbq30, hbq99, hbsq, hbqt⟩ := hbest
              have hmono : size (s.low - 1) ≤ size ((s.low + s.high) / 2) :=
                mono _ _ (by omega) (by omega) (by omega)
              by_cases habs : |size ((s.low + s.high) / 2) - target| <
                  |bs - target|
              · simp only [bestUpdate, if_pos habs]
                refine ⟨by omega, ?_, by omega, by omega, by trivial, hsz⟩
                congr 1
                omega
              · simp only [bestUpdate, if_neg habs]
                have hbst : bs ≤ target := by rw [hbsq]; exact hbqt
                have e1 : |size ((s.low + s.high) / 2) - target| =
                    target - size ((s.low + s.high) / 2) := by
                  rw [abs_of_nonpos (by linarith)]
                  ring
                have e2 : |bs - target| = target - bs := by
                  rw [abs_of_nonpos (by linarith)]
                  ring
                have hle : size ((s.low + s.high) / 2) ≤ bs := by
                  rw [e1, e2] at habs
                  linarith [not_lt.mp habs]
                have hge : bs ≤ size ((s.low + s.high) / 2) := by
                  rw [hbs]
                  exact hmono
                have heq : bs = size ((s.low + s.high) / 2) :=
                  le_antisymm hge hle
                refine ⟨by omega, ?_, hbq30, hbq99, hbsq, hbqt⟩
                rw [heq]
                congr 1
                omega
          · show ((s.high : ℤ) + 1 - ((s.low + s.high) / 2 + 1)).toNat < n
            omega
        · rw [aux_step_down size target (fun _ => false) n s hlh rfl hsz]
          apply ih
          · rw [aux_RInv_mk]
            refine ⟨hl30, by omega, by omega, ?_, ?_⟩
            · intro q hq1 hq2 hqt
              have : size ((s.low + s.high) / 2) ≤ size q :=
                mono _ _ (by omega) (by omega) hq2
              exact hsz (le_trans this hqt)
            · exact hbest
          · show ((s.low + s.high) / 2 - 1 + 1 - s.low).toNat < n
            omega
      · refine ⟨s, aux_step_exit size target (fun _ => false) n s hlh,
          ⟨hl30, hh99, hlh1, hB, hbest⟩, by omega⟩

/-- Claim C2 counterexample: for the constant size oracle 5 KB and target
10 KB - monotonically non-decreasing in quality - every quality in [30, 99]
is feasible, so the maximum feasible quality is 99; yet the promoted
artifact is the trial encoded at quality 64 (the first probe), because the
strict improvement rule never replaces the first best candidate when later
feasible sizes are equal.  So the search does not promote the artifact
encoded at the maximum feasible quality. -/
theorem C2_counterexample :
    (rasterize_to_target (fun _ => (5 : ℚ)) 10 (fun _ => false) ∅).promoted =
        some 64 ∧
      (fun _ : ℤ => (5 : ℚ)) 99 ≤ 10 ∧ (64 : ℤ) ≠ 99 := by
  refine ⟨?_, by norm_num, by decide⟩
  have e1 : rasterLoopF (fun _ => (5 : ℚ)) 10 (fun _ => false) 71
      ⟨30, 99, none, [], ∅, 0⟩ =
      rasterLoopF (fun _ => (5 : ℚ)) 10 (fun _ => false) 70
      ⟨65, 99, some (5, 64), [64], {FsPath.tmp 64}, 1⟩ := by
    rw [show (71 : ℕ) = 70 + 1 from rfl,
      aux_step_up (fun _ => (5 : ℚ)) 10 (fun _ => false) 70
        ⟨30, 99, none, [], ∅, 0⟩ (by norm_num) rfl (by norm_num)]
    norm_num [bestUpdate]
  have e2 : rasterLoopF (fun _ => (5 : ℚ)) 10 (fun _ => false) 70
      ⟨65, 99, some (5, 64), [64], {FsPath.tmp 64}, 1⟩ =
      rasterLoopF (fun _ => (5 : ℚ)) 10 (fun _ => false) 69
      ⟨83, 99, some (5, 64), [64, 82], {FsPath.tmp 82, FsPath.tmp 64}, 2⟩ := by
    rw [show (70 : ℕ) = 69 + 1 from rfl,
      aux_step_up (fun _ => (5 : ℚ)) 10 (fun _ => false) 69
        ⟨65, 99, some (5, 64), [64], {FsPath.tmp 64}, 1⟩ (by norm_num) rfl (by norm_num)]
    norm_num [bestUpdate]
  have e3 : rasterLoopF (fun _ => (5 : ℚ)) 10 (fun _ => false) 69
      ⟨83, 99, some (5, 64), [64, 82], {FsPath.tmp 82, FsPath.tmp 64}, 2⟩ =
      rasterLoopF (fun _ => (5 : ℚ)) 10 (fun _ => false) 68
      ⟨92, 99, some (5, 64), [64, 82, 91], {FsPath.tmp 91, FsPath.tmp 82, FsPath.tmp 64}, 3⟩ := by
    rw [show (69 : ℕ) = 68 + 1 from rfl,
      aux_step_up (fun _ => (5 : ℚ)) 10 (fun _ => false) 68
        ⟨83, 99, some (5, 64), [64, 82], {FsPath.tmp 82, FsPath.tmp 64}, 2⟩ (by norm_num) rfl (by norm_num)]
    norm_num [bestUpdate]
  have e4 : rasterLoopF (fun _ => (5 : ℚ)) 10 (fun _ => false) 68
      ⟨92, 99, some (5, 64), [64, 82, 91], {FsPath.tmp 91, FsPath.tmp 82, FsPath.tmp 64}, 3⟩ =
      rasterLoopF (fun _ => (5 : ℚ)) 10 (fun _ => false) 67
      ⟨96, 99, some (5, 64), [64, 82, 91, 95], {FsPath.tmp 95, FsPath.tmp 91, FsPath.tmp 82, FsPath.tmp 64}, 4⟩ := by
    rw [show (68 : ℕ) = 67 + 1 from rfl,
      aux_step_up (fun _ => (5 : ℚ)) 10 (fun _ => false) 67
        ⟨92, 99, some (5, 64), [64, 82, 91], {FsPath.tmp 91, FsPath.tmp 82, FsPath.tmp 64}, 3⟩ (by norm_num) rfl (by norm_num)]
    norm_num [bestUpdate]
  have e5 : rasterLoopF (fun _ => (5 : ℚ)) 10 (fun _ => false) 67
      ⟨96, 99, some (5, 64), [64, 82, 91, 95], {FsPath.tmp 95, FsPath.tmp 91, FsPath.tmp 82, FsPath.tmp 64}, 4⟩ =
      rasterLoopF (fun _ => (5 : ℚ)) 10 (fun _ => false) 66
      ⟨98, 99, some (5, 64), [64, 82, 91, 95, 97], {FsPath.tmp 97, FsPath.tmp 95, FsPath.tmp 91, FsPath.tmp 82, FsPath.tmp 64}, 5⟩ := by
    rw [show (67 : ℕ) = 66 + 1 from rfl,
      aux_step_up (fun _ => (5 : ℚ)) 10 (fun _ => false) 66
        ⟨96, 99, some (5, 64), [64, 82, 91, 95], {FsPath.tmp 95, FsPath.tmp 91, FsPath.tmp 82, FsPath.tmp 64}, 4⟩ (by norm_num) rfl (by norm_num)]
    norm_num [bestUpdate]
  have e6 : rasterLoopF (fun _ => (5 : ℚ)) 10 (fun _ => false) 66
      ⟨98, 99, some (5, 64), [64, 82, 91, 95, 97], {FsPath.tmp 97, FsPath.tmp 95, FsPath.tmp 91, FsPath.tmp 82, FsPath.tmp 64}, 5⟩ =
      rasterLoopF (fun _ => (5 : ℚ)) 10 (fun _ => false) 65
      ⟨99, 99, some (5, 64), [64, 82, 91, 95, 97, 98], {FsPath.tmp 98, FsPath.tmp 97, FsPath.tmp 95, FsPath.tmp 91, FsPath.tmp 82, FsPath.tmp 64}, 6⟩ := by
    rw [show (66 : ℕ) = 65 + 1 from rfl,
      aux_step_up (fun _ => (5 : ℚ)) 10 (fun _ => false) 65
        ⟨98, 99, some (5, 64), [64, 82, 91, 95, 97], {FsPath.tmp 97, FsPath.tmp 95, FsPath.tmp 91, FsPath.tmp 82, FsPath.tmp 64}, 5⟩ (by norm_num) rfl (by norm_num)]
    norm_num [bestUpdate]
  have e7 : rasterLoopF (fun _ => (5 : ℚ)) 10 (fun _ => false) 65
      ⟨99, 99, some (5, 64), [64, 82, 91, 95, 97, 98], {FsPath.tmp 98, FsPath.tmp 97, FsPath.tmp 95, FsPath.tmp 91, FsPath.tmp 82, FsPath.tmp 64}, 6⟩ =
      rasterLoopF (fun _ => (5 : ℚ)) 10 (fun _ => false) 64
      ⟨100, 99, some (5, 64), [64, 82, 91, 95, 97, 98, 99], {FsPath.tmp 99, FsPath.tmp 98, FsPath.tmp 97, FsPath.tmp 95, FsPath.tmp 91, FsPath.tmp 82, FsPath.tmp 64}, 7⟩ := by
    rw [show (65 : ℕ) = 64 + 1 from rfl,
      aux_step_up (fun _ => (5 : ℚ)) 10 (fun _ => false) 64
        ⟨99, 99, some (5, 64), [64, 82, 91, 95, 97, 98], {FsPath.tmp 98, FsPath.tmp 97, FsPath.tmp 95, FsPath.tmp 91, FsPath.tmp 82, FsPath.tmp 64}, 6⟩ (by norm_num) rfl (by norm_num)]
    norm_num [bestUpdate]
  have e8 : rasterLoopF (fun _ => (5 : ℚ)) 10 (fun _ => false) 64
      ⟨100, 99, some (5, 64), [64, 82, 91, 95, 97, 98, 99], {FsPath.tmp 99, FsPath.tmp 98, FsPath.tmp 97, FsPath.tmp 95, FsPath.tmp 91, FsPath.tmp 82, FsPath.tmp 64}, 7⟩ =
      some (LoopExit.normal
      ⟨100, 99, some (5, 64), [64, 82, 91, 95, 97, 98, 99], {FsPath.tmp 99, FsPath.tmp 98, FsPath.tmp 97, FsPath.tmp 95, FsPath.tmp 91, FsPath.tmp 82, FsPath.tmp 64}, 7⟩) := by
    rw [show (64 : ℕ) = 63 + 1 from rfl]
    exact aux_step_exit (fun _ => (5 : ℚ)) 10 (fun _ => false) 63
      ⟨100, 99, some (5, 64), [64, 82, 91, 95, 97, 98, 99], {FsPath.tmp 99, FsPath.tmp 98, FsPath.tmp 97, FsPath.tmp 95, FsPath.tmp 91, FsPath.tmp 82, FsPath.tmp 64}, 7⟩ (by norm_num)
  simp only [rasterize_to_target]
  rw [e1, e2, e3, e4, e5, e6, e7, e8]


/-- Claim C2 (amended): for a size oracle monotonically non-decreasing in
quality on [30, 99], the binary search terminates and promotes a feasible
trial artifact whose size equals the size at the maximum feasible quality
(its own quality can be lower when several qualities give that same size),
and it returns failure exactly when even quality 30 exceeds target_kb. -/
theorem C2_search_best (size : ℤ → ℚ) (target : ℚ) (fs0 : Finset FsPath)
    (mono : ∀ a b : ℤ, 30 ≤ a → a ≤ b → b ≤ 99 → size a ≤ size b) :
    (size 30 ≤ target →
       ∃ bq, (rasterize_to_target size target (fun _ => false) fs0).ret = true ∧
         (rasterize_to_target size target (fun _ => false) fs0).promoted =
           some bq ∧
         30 ≤ bq ∧ bq ≤ 99 ∧ size bq ≤ target ∧
         ∀ p, 30 ≤ p → p ≤ 99 → size p ≤ target → size p ≤ size bq) ∧
    (¬ size 30 ≤ target →
       (rasterize_to_target size target (fun _ => false) fs0).ret = false ∧
       (rasterize_to_target size target (fun _ => false) fs0).promoted =
         none) := by
  have hinv0 : RInv size target ⟨30, 99, none, [], fs0, 0⟩ := by
    rw [aux_RInv_mk]
    exact ⟨by omega, by omega, by omega,
      fun q h1 h2 => absurd (h1.trans_le h2) (lt_irrefl 99), rfl⟩
  obtain ⟨s2, hrun, hinv2, hexit⟩ :=
    aux_raster_run size target mono 71 ⟨30, 99, none, [], fs0, 0⟩ hinv0
      (by show ((99 : ℤ) + 1 - 30).toNat < 71; decide)
  obtain ⟨hl30, hh99, hlh1, hB, hbest⟩ := hinv2
  constructor
  · intro hfeas
    rcases hbst : s2.best with _ | ⟨bs, bq⟩
    · exfalso
      rw [hbst] at hbest
      exact hB 30 (by omega) (by omega) hfeas
    · rw [hbst] at hbest
      obtain ⟨hb31, hbs, hbq30, hbq99, hbsq, hbqt⟩ := hbest
      have hres : rasterize_to_target size target (fun _ => false) fs0 =
          ⟨true, some bq, cleanupTmp s2.tested (insert FsPath.out
            ((cleanupExcept bq s2.tested s2.fs).erase (FsPath.tmp bq)))⟩ := by
        simp only [rasterize_to_target]
        rw [hrun]
        simp only [hbst]
      refine ⟨bq, by rw [hres], by rw [hres], hbq30, hbq99, hbqt, ?_⟩
      intro p hp30 hp99 hpt
      have hple : p ≤ s2.high := by
        by_contra hgt
        exact hB p (by omega) hp99 hpt
      have h1 : size p ≤ size (s2.low - 1) :=
        mono p (s2.low - 1) hp30 (by omega) (by omega)
      rw [← hbs, hbsq] at h1
      exact h1
  · intro hinfeas
    rcases hbst : s2.best with _ | ⟨bs, bq⟩
    · have hres : rasterize_to_target size target (fun _ => false) fs0 =
          ⟨false, none, cleanupTmp s2.tested s2.fs⟩ := by
        simp only [rasterize_to_target]
        rw [hrun]
        simp only [hbst]
      exact ⟨by rw [hres], by rw [hres]⟩
    · exfalso
      rw [hbst] at hbest
      obtain ⟨hb31, hbs, hbq30, hbq99, hbsq, hbqt⟩ := hbest
      exact hinfeas (le_trans (mono 30 bq (by omega) hbq30 hbq99) hbqt)

/-- Witness for C2_search_best: the constant size oracle 5 KB with target
10 KB is monotone and feasible at quality 30. -/
theorem C2_witness :
    ∃ bq, (rasterize_to_target (fun _ => (5 : ℚ)) 10 (fun _ => false)
        ∅).ret = true ∧
      (rasterize_to_target (fun _ => (5 : ℚ)) 10 (fun _ => false)
        ∅).promoted = some bq ∧
      30 ≤ bq ∧ bq ≤ 99 ∧ (fun _ : ℤ => (5 : ℚ)) bq ≤ 10 ∧
      ∀ p, 30 ≤ p → p ≤ 99 → (fun _ : ℤ => (5 : ℚ)) p ≤ 10 →
        (fun _ : ℤ => (5 : ℚ)) p ≤ (fun _ : ℤ => (5 : ℚ)) bq :=
  (C2_search_best (fun _ => (5 : ℚ)) 10 ∅ (fun _ _ _ _ _ => le_refl 5)).1
    (by norm_num)

/-- Claim C5: whenever the file saved by Pass 1 (in-place recompression plus
structural optimization) has size within target_kb, resize_pdf returns
success with the Pass-1 file at the output path and Pass 2 is never
executed. -/
theorem C5_pass1_sufficient (env : PdfEnv) (target : ℚ)
    (hopen : env.openOk = true)
    (hsz : env.pass1SizeKB (pass1Images env.pages) ≤ target) :
    resize_pdf env target = ⟨true, false, some PassTag.pass1⟩ := by
  simp [resize_pdf, resize_pdfBody, hopen, hsz]

/-- Witness for C5_pass1_sufficient: an empty document whose Pass-1 save
measures 1 KB against a 2 KB target. -/
theorem C5_witness :
    resize_pdf ⟨true, [], fun _ => 1, fun _ => 5, fun _ => false⟩ 2 =
      ⟨true, false, some PassTag.pass1⟩ :=
  C5_pass1_sufficient ⟨true, [], fun _ => 1, fun _ => 5, fun _ => false⟩ 2
    rfl (by norm_num)

/-- Claim C6: an embedded image whose decode, conversion or recompression
raises is skipped and the remaining images and pages are processed exactly
as if the failing image were absent; in particular such a per-image failure
never changes - and never becomes a failure of - the resize_pdf result. -/
theorem C6_bad_image_skipped (bad : PdfImg) (hbad : bad.decodeOk = false)
    (ps1 ps2 : List (List PdfImg)) (is1 is2 : List PdfImg) (openOk : Bool)
    (p1 : List ℤ → ℚ) (p2 : ℤ → ℚ) (fa : ℕ → Bool) (target : ℚ) :
    pass1Images (ps1 ++ (is1 ++ bad :: is2) :: ps2) =
        pass1Images (ps1 ++ (is1 ++ is2) :: ps2) ∧
      resize_pdf ⟨openOk, ps1 ++ (is1 ++ bad :: is2) :: ps2, p1, p2, fa⟩
          target =
        resize_pdf ⟨openOk, ps1 ++ (is1 ++ is2) :: ps2, p1, p2, fa⟩ target := by
  have hpi : processImage bad = none := by
    simp [processImage, hbad]
  have h1 : pass1Images (ps1 ++ (is1 ++ bad :: is2) :: ps2) =
      pass1Images (ps1 ++ (is1 ++ is2) :: ps2) := by
    simp [pass1Images, hpi]
  exact ⟨h1, by simp only [resize_pdf, resize_pdfBody, h1]⟩

/-- Witness for C6_bad_image_skipped: a one-page document where the image
with xref 5 fails to decode between two healthy images. -/
theorem C6_witness :
    pass1Images [[⟨1, true⟩, ⟨5, false⟩, ⟨2, true⟩]] =
        pass1Images [[⟨1, true⟩, ⟨2, true⟩]] ∧
      resize_pdf ⟨true, [[⟨1, true⟩, ⟨5, false⟩, ⟨2, true⟩]], fun _ => 1,
          fun _ => 5, fun _ => false⟩ 2 =
        resize_pdf ⟨true, [[⟨1, true⟩, ⟨2, true⟩]], fun _ => 1, fun _ => 5,
          fun _ => false⟩ 2 :=
  C6_bad_image_skipped ⟨5, false⟩ rfl [] [] [⟨1, true⟩] [⟨2, true⟩] true
    (fun _ => 1) (fun _ => 5) (fun _ => false) 2

/-- Claim C8: resize_image and resize_pdf return a boolean synchronously
and never let an exception reach the caller: a body that raises (modelled
as an error value of the exception-explicit body) is caught and reported as
a False return with no output, and a body that returns normally has its
result passed through unchanged. -/
theorem C8_no_exception_escape :
    (∀ (env : ImgEnv) (target : ℚ) (ar : Option (ℤ × ℤ)),
        (resize_imageBody env target ar = Except.error () →
          resize_image env target ar = ⟨false, false, none⟩) ∧
        ∀ r, resize_imageBody env target ar = Except.ok r →
          resize_image env target ar = r) ∧
    (∀ (env : PdfEnv) (target : ℚ),
        (resize_pdfBody env target = Except.error () →
          resize_pdf env target = ⟨false, false, none⟩) ∧
        ∀ r, resize_pdfBody env target = Except.ok r →
          resize_pdf env target = r) := by
  constructor
  · intro env target ar
    constructor
    · intro herr
      simp [resize_image, herr]
    · intro r hok
      simp [resize_image, hok]
  · intro env target
    constructor
    · intro herr
      simp [resize_pdf, herr]
    · intro r hok
      simp [resize_pdf, hok]

/-- Witness for C8_no_exception_escape: a failing Image.open and a failing
fitz.open are both caught and reported as False. -/
theorem C8_witness :
    resize_image ⟨none, fun _ _ _ _ => 0⟩ 1 none = ⟨false, false, none⟩ ∧
      resize_pdf ⟨false, [], fun _ => 1, fun _ => 5, fun _ => false⟩ 1 =
        ⟨false, false, none⟩ :=
  ⟨(C8_no_exception_escape.1 ⟨none, fun _ _ _ _ => 0⟩ 1 none).1 rfl,
   (C8_no_exception_escape.2 ⟨false, [], fun _ => 1, fun _ => 5,
      fun _ => false⟩ 1).1 rfl⟩

/-- Recording and writing one more trial file preserves the file-set
characterization. -/
lemma aux_FsInv_mem_step (fs0 : Finset FsPath) (s : RasterState) (mid : ℤ)
    (hmem : ∀ x, x ∈ s.fs ↔ x ∈ fs0 ∨ ∃ tq ∈ s.tested, x = FsPath.tmp tq) :
    ∀ x, x ∈ insert (FsPath.tmp mid) s.fs ↔
      x ∈ fs0 ∨ ∃ tq ∈ s.tested ++ [mid], x = FsPath.tmp tq := by
  intro x
  rw [Finset.mem_insert, hmem x]
  constructor
  · rintro (rfl | hx | ⟨tq, htq, rfl⟩)
    · exact Or.inr ⟨mid, by simp, rfl⟩
    · exact Or.inl hx
    · exact Or.inr ⟨tq, by simp [htq], rfl⟩
  · rintro (hx | ⟨tq, htq, rfl⟩)
    · exact Or.inr (Or.inl hx)
    · rcases List.mem_append.mp htq with h | h
      · exact Or.inr (Or.inr ⟨tq, h, rfl⟩)
      · have hq : tq = mid := by simpa using h
        subst hq
        exact Or.inl rfl

/-- The quality recorded by a best-candidate update satisfies any property
that holds for the current probe and for the previous candidate. -/
lemma aux_bestUpdate_mem (sz target : ℚ) (mid : ℤ) (b : Option (ℚ × ℤ))
    (P : ℤ → Prop) (hmid : P mid) (hb : ∀ bs bq, b = some (bs, bq) → P bq) :
    ∀ bs bq, bestUpdate sz target mid b = some (bs, bq) → P bq := by
  intro bs bq h
  rcases b with _ | ⟨obs, obq⟩
  · simp only [bestUpdate, Option.some.injEq, Prod.mk.injEq] at h
    obtain ⟨-, rfl⟩ := h
    exact hmid
  · simp only [bestUpdate] at h
    by_cases habs : |sz - target| < |obs - target|
    · rw [if_pos habs] at h
      simp only [Option.some.injEq, Prod.mk.injEq] at h
      obtain ⟨-, rfl⟩ := h
      exact hmid
    · rw [if_neg habs] at h
      simp only [Option.some.injEq, Prod.mk.injEq] at h
      obtain ⟨-, rfl⟩ := h
      exact hb obs obq rfl

/-- The binary search maintains the file-set invariant on every exit,
normal or raised, for every fault pattern. -/
lemma aux_raster_fs (size : ℤ → ℚ) (target : ℚ) (fault : ℕ → Bool)
    (fs0 : Finset FsPath) :
    ∀ fuel (s : RasterState) (ex : LoopExit), FsInv fs0 s →
      rasterLoopF size target fault fuel s = some ex →
      FsInv fs0 (stateOf ex) := by
  intro fuel
  induction fuel with
  | zero => intro s ex _ heq; simp [rasterLoopF] at heq
  | succ n ih =>
      intro s ex hinv heq
      obtain ⟨hmem, hbest⟩ := hinv
      by_cases hlh : s.low ≤ s.high
      · by_cases hf : fault s.iter = true
        · rw [aux_step_fault size target fault n s hlh hf] at heq
          obtain rfl := Option.some.inj heq
          refine ⟨aux_FsInv_mem_step fs0 s _ hmem, ?_⟩
          intro bs bq h
          exact List.mem_append.mpr (Or.inl (hbest bs bq h))
        · have hf2 : fault s.iter = false := by
            revert hf
            cases fault s.iter <;> simp
          by_cases hsz : size ((s.low + s.high) / 2) ≤ target
          · rw [aux_step_up size target fault n s hlh hf2 hsz] at heq
            refine ih _ ex ⟨aux_FsInv_mem_step fs0 s _ hmem, ?_⟩ heq
            exact aux_bestUpdate_mem (size ((s.low + s.high) / 2)) target
              ((s.low + s.high) / 2) s.best _
              (List.mem_append.mpr (Or.inr (by simp)))
              (fun bs bq hh => List.mem_append.mpr (Or.inl (hbest bs bq hh)))
          · rw [aux_step_down size target fault n s hlh hf2 hsz] at heq
            refine ih _ ex ⟨aux_FsInv_mem_step fs0 s _ hmem, ?_⟩ heq
            intro bs bq h
            exact List.mem_append.mpr (Or.inl (hbest bs bq h))
      · rw [aux_step_exit size target fault n s hlh] at heq
        obtain rfl := Option.some.inj heq
        exact ⟨hmem, hbest⟩

/-- Membership in the finally-block cleanup: a file survives it exactly
when it was present and is not one of the recorded trial files. -/
lemma aux_mem_cleanupTmp (tested : List ℤ) :
    ∀ (fs : Finset FsPath) (x : FsPath),
      x ∈ cleanupTmp tested fs ↔ x ∈ fs ∧ ∀ t ∈ tested, x ≠ FsPath.tmp t := by
  induction tested with
  | nil =>
      intro fs x
      simp [cleanupTmp]
  | cons t ts ih =>
      intro fs x
      have hstep : cleanupTmp (t :: ts) fs =
          cleanupTmp ts (fs.erase (FsPath.tmp t)) := rfl
      rw [hstep, ih, Finset.mem_erase]
      constructor
      · rintro ⟨⟨hne, hx⟩, hall⟩
        refine ⟨hx, ?_⟩
        intro t2 ht2
        rcases List.mem_cons.mp ht2 with rfl | h
        · exact hne
        · exact hall t2 h
      · rintro ⟨hx, hall⟩
        exact ⟨⟨hall t (by simp), hx⟩, fun t2 ht2 => hall t2 (by simp [ht2])⟩

/-- Membership in the pre-promotion cleanup: a file survives it exactly
when it was present and is not a recorded trial file other than the
winner. -/
lemma aux_mem_cleanupExcept (keep : ℤ) (tested : List ℤ) :
    ∀ (fs : Finset FsPath) (x : FsPath),
      x ∈ cleanupExcept keep tested fs ↔
        x ∈ fs ∧ ∀ t ∈ tested, t ≠ keep → x ≠ FsPath.tmp t := by
  induction tested with
  | nil =>
      intro fs x
      simp [cleanupExcept]
  | cons t ts ih =>
      intro fs x
      have hstep : cleanupExcept keep (t :: ts) fs =
          cleanupExcept keep ts
            (if t = keep then fs else fs.erase (FsPath.tmp t)) := rfl
      rw [hstep, ih]
      by_cases hk : t = keep
      · rw [if_pos hk]
        subst hk
        constructor
        · rintro ⟨hx, hall⟩
          refine ⟨hx, ?_⟩
          intro t2 ht2 hne
          rcases List.mem_cons.mp ht2 with rfl | h
          · exact absurd rfl hne
          · exact hall t2 h hne
        · rintro ⟨hx, hall⟩
          exact ⟨hx, fun t2 ht2 hne => hall t2 (by simp [ht2]) hne⟩
      · rw [if_neg hk, Finset.mem_erase]
        constructor
        · rintro ⟨⟨hne, hx⟩, hall⟩
          refine ⟨hx, ?_⟩
          intro t2 ht2 hne2
          rcases List.mem_cons.mp ht2 with rfl | h
          · exact hne
          · exact hall t2 h hne2
        · rintro ⟨hx, hall⟩
          exact ⟨⟨hall t (by simp) hk, hx⟩,
            fun t2 ht2 hne2 => hall t2 (by simp [ht2]) hne2⟩

/-- The finally block restores the initial file set when the files present
are exactly the initial ones plus the recorded trial files. -/
lemma aux_cleanupTmp_to_fs0 (fs0 : Finset FsPath)
    (hcl : ∀ q, FsPath.tmp q ∉ fs0) (tested : List ℤ) (fs : Finset FsPath)
    (hmem : ∀ x, x ∈ fs ↔ x ∈ fs0 ∨ ∃ tq ∈ tested, x = FsPath.tmp tq) :
    cleanupTmp tested fs = fs0 := by
  apply Finset.ext
  intro x
  rw [aux_mem_cleanupTmp, hmem x]
  constructor
  · rintro ⟨hx | ⟨tq, htq, rfl⟩, hall⟩
    · exact hx
    · exact absurd rfl (hall tq htq)
  · intro hx
    refine ⟨Or.inl hx, ?_⟩
    intro t _ hxe
    rw [hxe] at hx
    exact hcl t hx

/-- On the success path, cleaning the non-winning trials, renaming the
winner to the output path and running the finally block leaves exactly the
initial file set plus the output file. -/
lemma aux_success_fs (fs0 : Finset FsPath)
    (hcl : ∀ q, FsPath.tmp q ∉ fs0) (tested : List ℤ) (fs : Finset FsPath)
    (bq : ℤ) (_hbq : bq ∈ tested)
    (hmem : ∀ x, x ∈ fs ↔ x ∈ fs0 ∨ ∃ tq ∈ tested, x = FsPath.tmp tq) :
    cleanupTmp tested
        (insert FsPath.out
          ((cleanupExcept bq tested fs).erase (FsPath.tmp bq))) =
      insert FsPath.out fs0 := by
  apply Finset.ext
  intro x
  rw [aux_mem_cleanupTmp, Finset.mem_insert, Finset.mem_erase,
    aux_mem_cleanupExcept, hmem x, Finset.mem_insert]
  constructor
  · rintro ⟨hout | ⟨hne, ⟨hx | ⟨tq, htq, rfl⟩, hall⟩⟩, hall2⟩
    · exact Or.inl hout
    · exact Or.inr hx
    · exact absurd rfl (hall2 tq htq)
  · rintro (hout | hx)
    · refine ⟨Or.inl hout, ?_⟩
      intro t _ hxe
      rw [hout] at hxe
      exact FsPath.noConfusion hxe
    · refine ⟨Or.inr ⟨?_, Or.inl hx, ?_⟩, ?_⟩
      · intro hxe
        rw [hxe] at hx
        exact hcl bq hx
      · intro t _ _ hxe
        rw [hxe] at hx
        exact hcl t hx
      · intro t _ hxe
        rw [hxe] at hx
        exact hcl t hx

/-- Claim C7: on every exit path all temporary trial artifacts are deleted
except the winning one promoted to the output path.  First conjunct: the
pixmap helper always removes its per-pixmap temp file, on the normal path
and under any raised error.  Second conjunct: for every fault pattern, when
the binary search succeeds the final file set is the initial one plus only
the output file, when it fails the initial file set is restored exactly,
and in both cases no trial file survives. -/
theorem C7_temp_cleanup :
    (∀ (u : ℕ) (env : JpegEnv) (fs : Finset FsPath),
        FsPath.tmpImg u ∉ fs → (get_compressed_jpeg_bytes u env fs).2 = fs) ∧
    (∀ (size : ℤ → ℚ) (target : ℚ) (fault : ℕ → Bool) (fs0 : Finset FsPath),
        (∀ q, FsPath.tmp q ∉ fs0) →
        ((rasterize_to_target size target fault fs0).ret = true →
            (rasterize_to_target size target fault fs0).fs =
              insert FsPath.out fs0) ∧
          ((rasterize_to_target size target fault fs0).ret = false →
            (rasterize_to_target size target fault fs0).fs = fs0) ∧
          (∀ q, FsPath.tmp q ∉
            (rasterize_to_target size target fault fs0).fs)) := by
  constructor
  · intro u env fs hnotin
    simp only [get_compressed_jpeg_bytes]
    by_cases hs : env.saveOk = true
    · rw [if_pos hs]
      by_cases hr : env.readOk = true
      · rw [if_pos hr]
        exact Finset.erase_insert hnotin
      · rw [if_neg hr]
        exact Finset.erase_insert hnotin
    · rw [if_neg hs]
      exact Finset.erase_eq_of_not_mem hnotin
  · intro size target fault fs0 hcl
    have hsome := aux_rasterLoopF_isSome size target fault 71
      ⟨30, 99, none, [], fs0, 0⟩ (by show (0 : ℤ) ≤ 30; norm_num)
      (by show ((99 : ℤ) + 1 - 30).toNat < 71; decide)
    obtain ⟨ex, hex⟩ := Option.isSome_iff_exists.mp hsome
    have hinv : FsInv fs0 (stateOf ex) :=
      aux_raster_fs size target fault fs0 71 _ ex
        ⟨by intro x; simp, by intro bs bq h; exact absurd h (by simp)⟩ hex
    rcases ex with s2 | s2
    · obtain ⟨hmem, hbest⟩ := hinv
      rcases hb : s2.best with _ | ⟨bs, bq⟩
      · have hres : rasterize_to_target size target fault fs0 =
            ⟨false, none, cleanupTmp s2.tested s2.fs⟩ := by
          simp only [rasterize_to_target]
          rw [hex]
          simp only [hb]
        have hfs : cleanupTmp s2.tested s2.fs = fs0 :=
          aux_cleanupTmp_to_fs0 fs0 hcl s2.tested s2.fs hmem
        rw [hres, hfs]
        exact ⟨fun h => absurd h (by simp), fun _ => rfl, fun q => hcl q⟩
      · have hres : rasterize_to_target size target fault fs0 =
            ⟨true, some bq, cleanupTmp s2.tested (insert FsPath.out
              ((cleanupExcept bq s2.tested s2.fs).erase (FsPath.tmp bq)))⟩ := by
          simp only [rasterize_to_target]
          rw [hex]
          simp only [hb]
        have hfs : cleanupTmp s2.tested (insert FsPath.out
            ((cleanupExcept bq s2.tested s2.fs).erase (FsPath.tmp bq))) =
            insert FsPath.out fs0 :=
          aux_success_fs fs0 hcl s2.tested s2.fs bq (hbest bs bq hb) hmem
        rw [hres, hfs]
        refine ⟨fun _ => rfl, fun h => absurd h (by simp), ?_⟩
        intro q hq
        rcases Finset.mem_insert.mp hq with h | h
        · exact FsPath.noConfusion h
        · exact hcl q h
    · obtain ⟨hmem, hbest⟩ := hinv
      have hres : rasterize_to_target size target fault fs0 =
          ⟨false, none, cleanupTmp s2.tested s2.fs⟩ := by
        simp only [rasterize_to_target]
        rw [hex]
      have hfs : cleanupTmp s2.tested s2.fs = fs0 :=
        aux_cleanupTmp_to_fs0 fs0 hcl s2.tested s2.fs hmem
      rw [hres, hfs]
      exact ⟨fun h => absurd h (by simp), fun _ => rfl, fun q => hcl q⟩

/-- Witness for C7_temp_cleanup: the pixmap helper on an empty working set,
and the fault-free search with the constant oracle on an empty working
set. -/
theorem C7_witness :
    (get_compressed_jpeg_bytes 0 ⟨true, true⟩ ∅).2 = ∅ ∧
      (((rasterize_to_target (fun _ => (5 : ℚ)) 10 (fun _ => false) ∅).ret =
            true →
          (rasterize_to_target (fun _ => (5 : ℚ)) 10 (fun _ => false) ∅).fs =
            insert FsPath.out ∅) ∧
        ((rasterize_to_target (fun _ => (5 : ℚ)) 10 (fun _ => false) ∅).ret =
            false →
          (rasterize_to_target (fun _ => (5 : ℚ)) 10 (fun _ => false) ∅).fs =
            ∅) ∧
        (∀ q, FsPath.tmp q ∉
          (rasterize_to_target (fun _ => (5 : ℚ)) 10 (fun _ => false) ∅).fs)) :=
  ⟨C7_temp_cleanup.1 0 ⟨true, true⟩ ∅ (by simp),
   C7_temp_cleanup.2 (fun _ => (5 : ℚ)) 10 (fun _ => false) ∅ (by simp)⟩

end FileResizer
